import Mathlib

/-
Shallow embedding of the AgroTree-Ledger/tree-data pipeline.

The repository is a single-pass batch pipeline: CSV tree points → convex-hull
region of interest → 1-hectare grid cells → NDVI canopy mask → per-cell cover
statistics → spatial join back onto the tree points → per-tree growth metrics.
Scalar Python floats are embedded as rationals; Earth Engine server objects
(feature collections, images, geometries) are embedded as lists, predicates and
measure-theoretic sets.  Each definition names the source function it embeds.

Layout: all definitions first, then the supporting lemmas, then one theorem
per specification claim (with witnesses and counterexamples).
-/

open MeasureTheory
open scoped ENNReal

/-! ## Definitions: rounding

Python's builtin round, used throughout growth_metrics.py as round(x, 2),
rounds half to even. -/

/-- Round a rational to the nearest integer, ties to the even integer,
modelling Python's builtin round on a scalar. -/
def roundHalfEven (x : ℚ) : ℤ :=
  if x - ⌊x⌋ = 1 / 2 then (if ⌊x⌋ % 2 = 0 then ⌊x⌋ else ⌊x⌋ + 1) else round x

/-- Python round(x, 2): scale by 100, round half to even, scale back. -/
def round2 (x : ℚ) : ℚ := (roundHalfEven (x * 100) : ℚ) / 100

/-! ## Definitions: growth metrics (src/tree_data/growth_metrics.py)

Heights, ages and rates are scalars; the current canopy height reaching
calculate_current_height_growth_rate can be Python None (the raster lookup
found no value), embedded as Option. -/

/-- Source constant GROWTH_SUBSEQUENT_YEARS. -/
def GROWTH_SUBSEQUENT_YEARS : ℚ := 2

/-- Source constant DBH_GROWTH_SUBSEQUENT_YEARS. -/
def DBH_GROWTH_SUBSEQUENT_YEARS : ℚ := 5 / 2

/-- Source: growth_metrics.calculate_standard_height_growth_rate. -/
def calculate_standard_height_growth_rate : ℚ := round2 GROWTH_SUBSEQUENT_YEARS

/-- Source: growth_metrics.calculate_current_height_growth_rate.  Returns 0
when the age is non-positive or the current height is None, otherwise the
two-decimal rounding of height divided by age. -/
def calculate_current_height_growth_rate (current_height : Option ℚ) (age : ℚ) : ℚ :=
  if age ≤ 0 ∨ current_height = none then 0
  else round2 (current_height.iget / age)

/-- Source: growth_metrics.calculate_standard_dbh_growth_rate. -/
def calculate_standard_dbh_growth_rate : ℚ := round2 DBH_GROWTH_SUBSEQUENT_YEARS

/-- Source: growth_metrics.calculate_current_dbh_growth_rate. -/
def calculate_current_dbh_growth_rate (current_dbh age : ℚ) : ℚ :=
  if age ≤ 0 then 0 else round2 (current_dbh / age)

/-- Source: growth_metrics.estimate_tree_value.  Age exactly 0 returns the
initial value unrounded; any other age gives the linear ramp clamped below by
the initial value, above by the maximum value, rounded to two decimals. -/
def estimate_tree_value (age initial_value max_value : ℚ) : ℚ :=
  if age = 0 then initial_value
  else round2 (min (max (initial_value + age * 35) initial_value) max_value)

/-- The dictionary built by collect_data.calculate_growth_metrics. -/
structure GrowthMetrics where
  standard_growth_rate_height : ℚ
  observed_growth_rate_height : ℚ
  standard_growth_rate_dbh : ℚ
  observed_growth_rate_dbh : ℚ
deriving DecidableEq

/-- Source: collect_data.calculate_growth_metrics. -/
def calculate_growth_metrics (age : ℚ) (canopy_height : Option ℚ) (dbh : ℚ) : GrowthMetrics :=
  { standard_growth_rate_height := calculate_standard_height_growth_rate
  , observed_growth_rate_height := calculate_current_height_growth_rate canopy_height age
  , standard_growth_rate_dbh := calculate_standard_dbh_growth_rate
  , observed_growth_rate_dbh := calculate_current_dbh_growth_rate dbh age }

/-! ## Definitions: batch orchestration (src/tree_data/collect_data.py)

The feature collection reaching gee_data_to_df is embedded as a list; the loop
for i in range(0, total, batch_size) is embedded as rangeStep. -/

/-- Fuel-indexed helper for Python range(start, stop, step); the fuel only
drives termination and never changes the value once it is at least
stop - start, since every iteration consumes at least one unit of distance. -/
def rangeStepAux : ℕ → ℕ → ℕ → ℕ → List ℕ
  | 0, _, _, _ => []
  | fuel + 1, start, stop, step =>
    if start < stop ∧ 0 < step then start :: rangeStepAux fuel (start + step) stop step
    else []

/-- Python range(start, stop, step): start, start + step, ... while below
stop. -/
def rangeStep (start stop step : ℕ) : List ℕ :=
  rangeStepAux (stop - start) start stop step

/-- Source: collect_data.get_batch.  ee.List.slice(start) takes everything
from start onward; slice(start, start + batch_size) takes the half-open
window of batch_size elements. -/
def get_batch {α : Type} (fc_list : List α) (start batch_size total : ℕ) : List α :=
  if total < batch_size + start then fc_list.drop start
  else (fc_list.drop start).take batch_size

/-- The list of batches issued by the loop in collect_data.gee_data_to_df. -/
def gee_batches {α : Type} (l : List α) (batch_size : ℕ) : List (List α) :=
  (rangeStep 0 l.length batch_size).map (fun i => get_batch l i batch_size l.length)

/-- Source: collect_data.gee_data_to_df with the per-feature record
construction abstracted as f: rows are appended feature by feature, batch by
batch, into the output table. -/
def gee_data_to_df {α β : Type} (l : List α) (f : α → β) (batch_size : ℕ) : List β :=
  ((gee_batches l batch_size).map (List.map f)).flatten

/-! ## Definitions: canopy cover (src/tree_data/canopy_cover.py) -/

/-- The per-cell statistics dictionary returned by calculate_canopy_area. -/
structure CanopyStats where
  canopy_cover_m2 : ℚ
  canopy_cover_percentage : ℚ
  tree_density : ℚ
deriving DecidableEq

/-- Source: canopy_cover.calculate_canopy_area.  The Earth Engine reduction of
the binary canopy image multiplied by pixel area over the polygon (sum reducer
at 10 m scale) is embedded as a list of (canopy pixel?, pixel area) pairs; the
summed area is capped at the polygon's own area, then turned into a
percentage and a tree count estimate. -/
def calculate_canopy_area (bin_canopy : List (Bool × ℚ)) (polygon_area : ℚ)
    (specie_tree_density : ℚ) : CanopyStats :=
  let canopy_sum := (bin_canopy.map (fun px => if px.1 then px.2 else 0)).sum
  let canopy_area := min canopy_sum polygon_area
  { canopy_cover_m2 := canopy_area
  , canopy_cover_percentage := canopy_area / polygon_area * 100
  , tree_density := canopy_area / 10000 * specie_tree_density }

/-- Source: canopy_cover.cover_per_hectare updates each grid polygon through
calculate_canopy_area with the hard-coded density 400 (the CLI flag for tree
density is not threaded through to this call). -/
def cover_per_hectare_cell (bin_canopy : List (Bool × ℚ)) (polygon_area : ℚ) : CanopyStats :=
  calculate_canopy_area bin_canopy polygon_area 400

/-- One Sentinel-2 scene as seen by the filters inside canopy_cover.image_ndvi:
its system time, its CLOUDY_PIXEL_PERCENTAGE property, and whether its
footprint intersects the region of interest (filterBounds). -/
structure Scene where
  time_start : ℤ
  cloudy_pixel_percentage : ℚ
  intersects_roi : Bool
deriving DecidableEq

/-- Epoch milliseconds of 2023-01-01T00:00:00Z, the hard-coded filterDate
lower bound in image_ndvi. -/
def s2FilterStart : ℤ := 1672531200000

/-- Epoch milliseconds of 2023-12-31T00:00:00Z, the hard-coded filterDate
upper bound (exclusive) in image_ndvi. -/
def s2FilterEnd : ℤ := 1703980800000

/-- A scene passes the three filters of image_ndvi: bounds, the hard-coded
2023 date range, and CLOUDY_PIXEL_PERCENTAGE strictly below the hard-coded
threshold 5. -/
def s2Qualifies (s : Scene) : Bool :=
  s.intersects_roi && decide (s2FilterStart ≤ s.time_start)
    && decide (s.time_start < s2FilterEnd)
    && decide (s.cloudy_pixel_percentage < 5)

/-- One step of selecting the head of the collection sorted by system time
descending: keep the current best unless a strictly more recent scene shows
up (so ties keep the earlier list element, a deterministic reading of the
unspecified sort tie-break). -/
def fmStep (acc : Option Scene) (s : Scene) : Option Scene :=
  match acc with
  | none => some s
  | some t => if t.time_start < s.time_start then some s else acc

/-- sort by system time descending then take the first element. -/
def firstMostRecent (l : List Scene) : Option Scene :=
  l.foldl fmStep none

/-- Source: canopy_cover.image_ndvi.  Filters the Sentinel-2 collection by
bounds, the hard-coded 2023 date range and cloud cover below 5, sorts by
system time descending and takes the first scene.  The NDVI band arithmetic
on the selected image is not modelled; the embedding returns the selected
scene, none when no scene qualifies (in the source, first() then yields null
and the later band selection fails with a generic Earth Engine error — the
code base contains no NoImageryAvailableError). -/
def image_ndvi (scenes : List Scene) : Option Scene :=
  firstMostRecent (scenes.filter s2Qualifies)

/-- A tree feature as it reaches the spatial join of extract_canopy_cover:
its identity and its (possibly still absent) canopy cover attribute. -/
structure TreeFeature where
  tid : ℕ
  canopy_cover_percentage : Option ℚ
deriving DecidableEq

/-- A grid cell feature as produced by cover_per_hectare: its canopy cover
percentage property. -/
structure GridCellFeature where
  cell_cover : ℚ
deriving DecidableEq

/-- Source: canopy_cover.extract_canopy_cover.  ee.Join.saveFirst with the
default outer=false is an inner join: each primary (tree) feature is paired
with the first secondary (cell) feature passing the intersects filter, and
primary features without any match are dropped from the joined collection;
add_pol_properties then copies the matched cell's cover onto the tree.  The
geometric intersects filter (maxError 10) is abstracted as a predicate. -/
def extract_canopy_cover (trees : List TreeFeature) (polygons_filled : List GridCellFeature)
    (intersects : TreeFeature → GridCellFeature → Bool) : List TreeFeature :=
  trees.filterMap (fun t =>
    (polygons_filled.find? (intersects t)).map
      (fun c => { t with canopy_cover_percentage := some c.cell_cover }))

/-! ## Definitions: points and region of interest (src/utils.py) -/

/-- A tree point's geographic coordinates (longitude, latitude). -/
abbrev PointQ := ℚ × ℚ

/-- Twice the signed area of the triangle p q r; zero exactly when the three
points are collinear. -/
def cross2 (p q r : PointQ) : ℚ :=
  (q.1 - p.1) * (r.2 - p.2) - (q.2 - p.2) * (r.1 - p.1)

/-- Every point of the list coincides with the first one (the multipoint hull
degenerates to a single point). -/
def allSamePoint (ps : List PointQ) : Bool :=
  match ps with
  | [] => true
  | p :: rest => rest.all (fun q => decide (q = p))

/-- All triples of points in the list are collinear. -/
def allCollinear (ps : List PointQ) : Bool :=
  ps.all fun a => ps.all fun b => ps.all fun c => decide (cross2 a b c = 0)

/-- shapely geometry kind of the convex hull of the points: empty for no
points, Point for a single distinct point, LineString for at least two
distinct collinear points, Polygon otherwise. -/
inductive HullKind
  | emptyHull
  | pointHull
  | lineHull
  | polygonHull
deriving DecidableEq

/-- Geometry kind of MultiPoint(points).convex_hull. -/
def hullKind (ps : List PointQ) : HullKind :=
  if ps.isEmpty then .emptyHull
  else if allSamePoint ps then .pointHull
  else if allCollinear ps then .lineHull
  else .polygonHull

/-- Outcome of utils.extract_roi_from_points: a hull polygon, a buffered
polygon from a degenerate LineString hull, a raw non-polygonal hull (possible
only on the wkt_format path), or the AttributeError crash from reading the
exterior of a non-polygon. -/
inductive RoiOutcome
  | polygonRoi
  | bufferedPolygonRoi
  | rawHull (k : HullKind)
  | attributeErrorCrash
deriving DecidableEq

/-- The outcome is a usable region-of-interest polygon. -/
def RoiOutcome.isRoi : RoiOutcome → Bool
  | .polygonRoi => true
  | .bufferedPolygonRoi => true
  | _ => false

/-- Source: utils.extract_roi_from_points.  The convex hull of the points is
taken; a LineString hull (all points collinear, at least two distinct) is
buffered by 0.001 degrees into a polygon.  With wkt_format the possibly
buffered hull is returned as is; otherwise hull.exterior.coords is read,
which exists only for polygons — on a Point or empty hull Python raises
AttributeError.  No InsufficientDataError, and no point-count check at all,
exists in the code. -/
def extract_roi_from_points (ps : List PointQ) (wkt_format : Bool) : RoiOutcome :=
  match hullKind ps with
  | .lineHull => .bufferedPolygonRoi
  | .polygonHull => .polygonRoi
  | k => if wkt_format then .rawHull k else .attributeErrorCrash

/-! ## Definitions: grid construction (canopy_cover.create_grid_within_roi)

The region of interest, the grid rectangles and the clipped cells live in the
degree-coordinate plane ℝ × ℝ (longitude, latitude).  Earth Engine's geodesic
area operator — clipped.area(1), in square meters — is embedded as an
arbitrary measure μ on that plane; the hypotheses that vertical and
horizontal lines are μ-null reflect that degenerate boundary segments have
zero geodesic area (Lebesgue planar area is the canonical instance). -/

/-- Source constant: meters per degree of latitude. -/
noncomputable def meters_per_degree_lat : ℝ := 111320

/-- Meters per degree of longitude at the bounding box's minimum latitude:
the cosine correction meters_per_degree_lat * cos(radians(lat_min)). -/
noncomputable def meters_per_degree_lon (lat_min : ℝ) : ℝ :=
  meters_per_degree_lat * Real.cos (lat_min * Real.pi / 180)

/-- width_deg = gridsize / meters_per_degree_lon. -/
noncomputable def width_deg (lat_min gridsize : ℝ) : ℝ :=
  gridsize / meters_per_degree_lon lat_min

/-- height_deg = gridsize / meters_per_degree_lat. -/
noncomputable def height_deg (gridsize : ℝ) : ℝ :=
  gridsize / meters_per_degree_lat

/-- n_lon = ceil((lon_max - lon_min) / width_deg) grid columns. -/
noncomputable def n_lon (lon_min lon_max lat_min gridsize : ℝ) : ℕ :=
  ⌈(lon_max - lon_min) / width_deg lat_min gridsize⌉₊

/-- n_lat = ceil((lat_max - lat_min) / height_deg) grid rows. -/
noncomputable def n_lat (lat_min lat_max gridsize : ℝ) : ℕ :=
  ⌈(lat_max - lat_min) / height_deg gridsize⌉₊

/-- The closed rectangle of grid cell (i, j): ee.Geometry.Rectangle from
(lon_min + i·w, lat_min + j·h) to (lon_min + i·w + w, lat_min + j·h + h). -/
def cell_rect (lon_min lat_min w h : ℝ) (ij : ℕ × ℕ) : Set (ℝ × ℝ) :=
  Set.Icc (lon_min + ij.1 * w) (lon_min + ij.1 * w + w) ×ˢ
    Set.Icc (lat_min + ij.2 * h) (lat_min + ij.2 * h + h)

/-- rect.intersection(roi, ErrorMargin(1)) followed by clipped.area(1): the
μ-area of the exact clipped cell (the error margins are abstracted away). -/
noncomputable def clipped_area (μ : Measure (ℝ × ℝ)) (roi : Set (ℝ × ℝ))
    (lon_min lat_min w h : ℝ) (ij : ℕ × ℕ) : ℝ≥0∞ :=
  μ (cell_rect lon_min lat_min w h ij ∩ roi)

/-- Index set of the full n_lon × n_lat tiling of the bounding box. -/
noncomputable def grid_index (lon_min lat_min lon_max lat_max gridsize : ℝ) :
    Finset (ℕ × ℕ) :=
  Finset.range (n_lon lon_min lon_max lat_min gridsize) ×ˢ
    Finset.range (n_lat lat_min lat_max gridsize)

/-- Source: canopy_cover.create_grid_within_roi — the indices of the retained
cells, i.e. the ee.Filter.gt('area_m2', 1) filtering of the full tiling by
clipped area strictly above 1 m². -/
noncomputable def create_grid_within_roi (μ : Measure (ℝ × ℝ)) (roi : Set (ℝ × ℝ))
    (lon_min lat_min lon_max lat_max gridsize : ℝ) : Finset (ℕ × ℕ) :=
  (grid_index lon_min lat_min lon_max lat_max gridsize).filter
    (fun ij => 1 < clipped_area μ roi lon_min lat_min
      (width_deg lat_min gridsize) (height_deg gridsize) ij)

/-! ## Supporting lemmas: rounding -/

lemma roundHalfEven_bounds (x : ℚ) : ⌊x⌋ ≤ roundHalfEven x ∧ roundHalfEven x ≤ ⌊x⌋ + 1 := by
  unfold roundHalfEven
  split_ifs with h1 h2
  · exact ⟨le_refl _, by omega⟩
  · exact ⟨by omega, le_refl _⟩
  · rw [round_eq]
    constructor
    · exact Int.floor_mono (by linarith)
    · have hfl : x < (⌊x⌋ : ℚ) + 1 := Int.lt_floor_add_one x
      have h2 : ⌊x + 1 / 2⌋ < ⌊x⌋ + 1 + 1 := by
        rw [Int.floor_lt]
        push_cast
        linarith
      omega

lemma roundHalfEven_mono {x y : ℚ} (hxy : x ≤ y) : roundHalfEven x ≤ roundHalfEven y := by
  rcases lt_or_le ⌊x⌋ ⌊y⌋ with hf | hf
  · calc roundHalfEven x ≤ ⌊x⌋ + 1 := (roundHalfEven_bounds x).2
      _ ≤ ⌊y⌋ := by omega
      _ ≤ roundHalfEven y := (roundHalfEven_bounds y).1
  · have hfe : ⌊y⌋ = ⌊x⌋ := le_antisymm hf (Int.floor_mono hxy)
    by_cases h1 : x - ⌊x⌋ = 1 / 2
    · by_cases h3 : y - ⌊y⌋ = 1 / 2
      · have hxeq : x = y := by rw [hfe] at h3; linarith
        rw [hxeq]
    -- x sits on a half point, y does not, so y - ⌊x⌋ > 1/2 and round y = ⌊x⌋ + 1
      · have h3x : ¬y - (⌊x⌋ : ℚ) = 1 / 2 := by rw [hfe] at h3; exact h3
        have hy2 : (1 : ℚ) / 2 < y - ⌊x⌋ := by
          have hge : (1 : ℚ) / 2 ≤ y - ⌊x⌋ := by linarith
          exact lt_of_le_of_ne hge (fun he => h3x he.symm)
        have hry : roundHalfEven y = round y := by
          unfold roundHalfEven; rw [hfe, if_neg h3x]
        have hrv : ⌊x⌋ + 1 ≤ round y := by
          rw [round_eq, Int.le_floor]
          push_cast
          linarith
        have hlx : roundHalfEven x ≤ ⌊x⌋ + 1 := (roundHalfEven_bounds x).2
        omega
    · by_cases h3 : y - ⌊y⌋ = 1 / 2
    -- y sits on a half point, x does not, so x - ⌊x⌋ < 1/2 and round x = ⌊x⌋
      · have h3x : y - (⌊x⌋ : ℚ) = 1 / 2 := by rw [hfe] at h3; exact h3
        have hx2 : x - (⌊x⌋ : ℚ) < 1 / 2 :=
          lt_of_le_of_ne (by linarith) h1
        have hrx : roundHalfEven x = round x := by
          unfold roundHalfEven; rw [if_neg h1]
        have hrv : round x ≤ ⌊x⌋ := by
          rw [round_eq]
          have hlt : ⌊x + 1 / 2⌋ < ⌊x⌋ + 1 := by
            rw [Int.floor_lt]; push_cast; linarith
          omega
        have hby : ⌊x⌋ ≤ roundHalfEven y := hfe ▸ (roundHalfEven_bounds y).1
        omega
      · have hrx : roundHalfEven x = round x := by
          unfold roundHalfEven; rw [if_neg h1]
        have hry : roundHalfEven y = round y := by
          unfold roundHalfEven; rw [if_neg h3]
        rw [hrx, hry, round_eq, round_eq]
        exact Int.floor_mono (by linarith)

lemma round2_mono {x y : ℚ} (hxy : x ≤ y) : round2 x ≤ round2 y := by
  unfold round2
  have h := roundHalfEven_mono (by linarith : x * 100 ≤ y * 100)
  have h2 : ((roundHalfEven (x * 100) : ℚ)) ≤ (roundHalfEven (y * 100) : ℚ) := by
    exact_mod_cast h
  linarith

/-! ## Supporting lemmas: batching -/

lemma rangeStepAux_congr :
    ∀ (f g start stop step : ℕ), stop - start ≤ f → stop - start ≤ g →
      rangeStepAux f start stop step = rangeStepAux g start stop step := by
  intro f
  induction f with
  | zero =>
    intro g start stop step hf hg
    cases g with
    | zero => rfl
    | succ g =>
      have hc : ¬(start < stop ∧ 0 < step) := by omega
      simp [rangeStepAux, hc]
  | succ n ih =>
    intro g start stop step hf hg
    cases g with
    | zero =>
      have hc : ¬(start < stop ∧ 0 < step) := by omega
      simp [rangeStepAux, hc]
    | succ g =>
      by_cases hc : start < stop ∧ 0 < step
      · simp only [rangeStepAux, if_pos hc]
        rw [ih g (start + step) stop step (by omega) (by omega)]
      · simp [rangeStepAux, hc]

lemma rangeStep_eq (start stop step : ℕ) (hs : 0 < step) :
    rangeStep start stop step =
      if start < stop then start :: rangeStep (start + step) stop step else [] := by
  unfold rangeStep
  by_cases h : start < stop
  · rw [if_pos h]
    obtain ⟨k, hk⟩ : ∃ k, stop - start = k + 1 := ⟨stop - start - 1, by omega⟩
    have hc : start < stop ∧ 0 < step := ⟨h, hs⟩
    rw [hk]
    simp only [rangeStepAux]
    rw [if_pos hc, rangeStepAux_congr k (stop - (start + step)) (start + step) stop step
      (by omega) (by omega)]
  · rw [if_neg h]
    have h0 : stop - start = 0 := by omega
    rw [h0]
    rfl

lemma get_batch_length {α : Type} (l : List α) (i b : ℕ) :
    (get_batch l i b l.length).length = min b (l.length - i) := by
  unfold get_batch
  by_cases hc : l.length < b + i
  · rw [if_pos hc, List.length_drop, Nat.min_eq_right (by omega)]
  · rw [if_neg hc, List.length_take, List.length_drop]

lemma gee_batches_flatten_aux {α : Type} (l : List α) (b : ℕ) (hb : 0 < b) :
    ∀ (fuel start : ℕ), l.length - start ≤ fuel →
      ((rangeStep start l.length b).map (fun i => get_batch l i b l.length)).flatten
        = l.drop start := by
  intro fuel
  induction fuel with
  | zero =>
    intro start h
    rw [rangeStep_eq _ _ _ hb, if_neg (by omega)]
    simp [List.drop_eq_nil_of_le (by omega : l.length ≤ start)]
  | succ n ih =>
    intro start h
    rw [rangeStep_eq _ _ _ hb]
    by_cases hlt : start < l.length
    · rw [if_pos hlt]
      simp only [List.map_cons, List.flatten_cons]
      rw [ih (start + b) (by omega)]
      unfold get_batch
      by_cases hc : l.length < b + start
      · rw [if_pos hc, List.drop_eq_nil_of_le (by omega : l.length ≤ start + b),
          List.append_nil]
      · rw [if_neg hc]
        have hd : l.drop (start + b) = (l.drop start).drop b := by
          rw [List.drop_drop]
        rw [hd, List.take_append_drop]
    · rw [if_neg hlt]
      simp [List.drop_eq_nil_of_le (by omega : l.length ≤ start)]

lemma rangeStep_length (b : ℕ) (hb : 0 < b) :
    ∀ (fuel start stop : ℕ), stop - start ≤ fuel →
      (rangeStep start stop b).length = (stop - start + b - 1) / b := by
  intro fuel
  induction fuel with
  | zero =>
    intro start stop h
    rw [rangeStep_eq _ _ _ hb, if_neg (by omega)]
    have h0 : stop - start = 0 := by omega
    rw [h0]
    have h1 : 0 + b - 1 = b - 1 := by omega
    rw [List.length_nil, h1, Nat.div_eq_of_lt (by omega)]
  | succ n ih =>
    intro start stop h
    rw [rangeStep_eq _ _ _ hb]
    by_cases hlt : start < stop
    · rw [if_pos hlt, List.length_cons, ih (start + b) stop (by omega)]
      rcases le_or_lt (stop - start) b with hm | hm
      · have h1 : stop - (start + b) = 0 := by omega
        have h2 : 0 + b - 1 = b - 1 := by omega
        rw [h1, h2, Nat.div_eq_of_lt (by omega)]
        have h3 : stop - start + b - 1 = (stop - start - 1) + b := by omega
        rw [h3, Nat.add_div_right _ hb, Nat.div_eq_of_lt (by omega : stop - start - 1 < b)]
      · have h1 : stop - (start + b) + b - 1 = stop - start - 1 := by omega
        have h2 : stop - start + b - 1 = (stop - start - 1) + b := by omega
        rw [h1, h2, Nat.add_div_right _ hb]
    · rw [if_neg hlt]
      have h0 : stop - start = 0 := by omega
      rw [h0, List.length_nil]
      have h1 : 0 + b - 1 = b - 1 := by omega
      rw [h1, Nat.div_eq_of_lt (by omega)]

lemma gee_batches_dropLast_aux {α : Type} (l : List α) (b : ℕ) (hb : 0 < b) :
    ∀ (fuel start : ℕ), l.length - start ≤ fuel →
      ∀ s ∈ ((rangeStep start l.length b).map
        (fun i => get_batch l i b l.length)).dropLast, s.length = b := by
  intro fuel
  induction fuel with
  | zero =>
    intro start h s hs
    rw [rangeStep_eq _ _ _ hb, if_neg (by omega)] at hs
    simp at hs
  | succ n ih =>
    intro start h s hs
    rw [rangeStep_eq _ _ _ hb] at hs
    by_cases hlt : start < l.length
    · rw [if_pos hlt, List.map_cons] at hs
      by_cases hrest : start + b < l.length
      · have hne : (rangeStep (start + b) l.length b).map
            (fun i => get_batch l i b l.length) ≠ [] := by
          rw [rangeStep_eq _ _ _ hb, if_pos hrest]
          simp
        rw [List.dropLast_cons_of_ne_nil hne, List.mem_cons] at hs
        rcases hs with hs | hs
        · rw [hs, get_batch_length, Nat.min_eq_left (by omega)]
        · exact ih (start + b) (by omega) s hs
      · have hnil : rangeStep (start + b) l.length b = [] := by
          rw [rangeStep_eq _ _ _ hb, if_neg hrest]
        rw [hnil] at hs
        simp at hs
    · rw [if_neg hlt] at hs
      simp at hs

/-! ## Supporting lemmas: scene selection -/

lemma firstMostRecent_go (l : List Scene) :
    ∀ a : Scene, ∃ r : Scene, l.foldl fmStep (some a) = some r ∧
      (r = a ∨ r ∈ l) ∧ a.time_start ≤ r.time_start ∧
      ∀ t ∈ l, t.time_start ≤ r.time_start := by
  induction l with
  | nil =>
    intro a
    exact ⟨a, rfl, Or.inl rfl, le_refl _, by simp⟩
  | cons s ls ih =>
    intro a
    rw [List.foldl_cons]
    by_cases hc : a.time_start < s.time_start
    · have hstep : fmStep (some a) s = some s := by simp [fmStep, hc]
      rw [hstep]
      obtain ⟨r, hr, hmem, hle, hmax⟩ := ih s
      refine ⟨r, hr, ?_, le_trans (le_of_lt hc) hle, ?_⟩
      · rcases hmem with h | h
        · exact Or.inr (h ▸ List.mem_cons_self s ls)
        · exact Or.inr (List.mem_cons_of_mem s h)
      · intro t ht
        rcases List.mem_cons.mp ht with h | h
        · exact h ▸ hle
        · exact hmax t h
    · have hstep : fmStep (some a) s = some a := by simp [fmStep, hc]
      rw [hstep]
      obtain ⟨r, hr, hmem, hle, hmax⟩ := ih a
      refine ⟨r, hr, ?_, hle, ?_⟩
      · rcases hmem with h | h
        · exact Or.inl h
        · exact Or.inr (List.mem_cons_of_mem s h)
      · intro t ht
        rcases List.mem_cons.mp ht with h | h
        · have hsa : s.time_start ≤ a.time_start := le_of_not_lt hc
          exact h ▸ le_trans hsa hle
        · exact hmax t h

lemma firstMostRecent_spec (l : List Scene) :
    (firstMostRecent l = none ↔ l = []) ∧
    ∀ r, firstMostRecent l = some r →
      r ∈ l ∧ ∀ t ∈ l, t.time_start ≤ r.time_start := by
  cases l with
  | nil =>
    refine ⟨by simp [firstMostRecent], ?_⟩
    intro r h
    simp [firstMostRecent] at h
  | cons a ls =>
    unfold firstMostRecent
    rw [List.foldl_cons]
    have hstep : fmStep none a = some a := rfl
    rw [hstep]
    obtain ⟨r0, hr0, hmem0, hle0, hmax0⟩ := firstMostRecent_go ls a
    rw [hr0]
    constructor
    · simp
    · intro r hr
      have hrr : r0 = r := by injection hr
      subst hrr
      constructor
      · rcases hmem0 with h | h
        · exact h ▸ List.mem_cons_self a ls
        · exact List.mem_cons_of_mem a h
      · intro t ht
        rcases List.mem_cons.mp ht with h | h
        · exact h ▸ hle0
        · exact hmax0 t h

/-! ## Claim theorems -/

/-- Claim C7 counterexample: with initial value 1.111 (three decimals) the
claimed monotonicity and the containment in the interval from the initial to
the maximum value both fail: at age 1/10000 the clamped ramp rounds down to
1.11, strictly below the age-0 value 1.111 and below the initial value. -/
theorem estimate_tree_value_claim_cex :
    (0 : ℚ) ≤ 1 / 10000 ∧
    estimate_tree_value (1 / 10000) (1111 / 1000) 500
        < estimate_tree_value 0 (1111 / 1000) 500 ∧
    estimate_tree_value (1 / 10000) (1111 / 1000) 500 < 1111 / 1000 := by
  have h1 : estimate_tree_value (1 / 10000) (1111 / 1000) 500 = 111 / 100 := by
    norm_num [estimate_tree_value, round2, roundHalfEven, round_eq]
  have h2 : estimate_tree_value 0 (1111 / 1000) 500 = 1111 / 1000 := by
    norm_num [estimate_tree_value]
  refine ⟨by norm_num, ?_, ?_⟩
  · rw [h1, h2]; norm_num
  · rw [h1]; norm_num

/-- Claim C7 (amended): estimate_tree_value at age 0 returns the initial value
exactly, for every input.  Provided the initial and maximum values are exact
two-decimal amounts (fixed by round2) with initial ≤ max, the function is also
monotonically non-decreasing in age and its result always lies between the
initial and the maximum value; for other initial values the final two-decimal
rounding can push the result below the initial value and break monotonicity. -/
theorem estimate_tree_value_props (iv mv : ℚ) (hiv : round2 iv = iv)
    (hmv : round2 mv = mv) (h : iv ≤ mv) :
    (∀ iv0 mv0 : ℚ, estimate_tree_value 0 iv0 mv0 = iv0) ∧
    (∀ a b : ℚ, a ≤ b → estimate_tree_value a iv mv ≤ estimate_tree_value b iv mv) ∧
    (∀ a : ℚ, iv ≤ estimate_tree_value a iv mv ∧ estimate_tree_value a iv mv ≤ mv) := by
  have hzero : ∀ iv0 mv0 : ℚ, estimate_tree_value 0 iv0 mv0 = iv0 := by
    intro iv0 mv0; simp [estimate_tree_value]
  have hrange : ∀ a : ℚ, iv ≤ estimate_tree_value a iv mv ∧ estimate_tree_value a iv mv ≤ mv := by
    intro a
    by_cases ha : a = 0
    · rw [ha, hzero]; exact ⟨le_refl _, h⟩
    · unfold estimate_tree_value
      rw [if_neg ha]
      constructor
      · have hlo : iv ≤ min (max (iv + a * 35) iv) mv :=
          le_min (le_max_right _ _) h
        calc iv = round2 iv := hiv.symm
          _ ≤ round2 (min (max (iv + a * 35) iv) mv) := round2_mono hlo
      · have hhi : min (max (iv + a * 35) iv) mv ≤ mv := min_le_right _ _
        calc round2 (min (max (iv + a * 35) iv) mv) ≤ round2 mv := round2_mono hhi
          _ = mv := hmv
  refine ⟨hzero, ?_, hrange⟩
  intro a b hab
  by_cases ha : a = 0
  · rw [ha, hzero]
    exact (hrange b).1
  · by_cases hb : b = 0
    · have haneg : a < 0 := lt_of_le_of_ne (hb ▸ hab) ha
      have hclamp : min (max (iv + a * 35) iv) mv = iv := by
        rw [max_eq_right (by nlinarith : iv + a * 35 ≤ iv), min_eq_left h]
      unfold estimate_tree_value
      rw [if_neg ha, if_pos hb, hclamp, hiv]
    · unfold estimate_tree_value
      rw [if_neg ha, if_neg hb]
      exact round2_mono (min_le_min (max_le_max (by linarith) (le_refl _)) (le_refl _))

/-- Claim C7 witness: the concrete call-site values iv = 100, mv = 500 satisfy
the two-decimal hypotheses, and the amended theorem applies. -/
theorem estimate_tree_value_props_witness :
    round2 100 = 100 ∧ round2 500 = 500 ∧ (100 : ℚ) ≤ 500 ∧
    estimate_tree_value 0 100 500 = 100 ∧ 100 ≤ estimate_tree_value 7 100 500 :=
  have h1 : round2 100 = 100 := by norm_num [round2, roundHalfEven, round_eq]
  have h2 : round2 500 = 500 := by norm_num [round2, roundHalfEven, round_eq]
  have h3 : (100 : ℚ) ≤ 500 := by norm_num
  ⟨h1, h2, h3, (estimate_tree_value_props 100 500 h1 h2 h3).1 100 500,
    ((estimate_tree_value_props 100 500 h1 h2 h3).2.2 7).1⟩

/-- Claim C9: for every non-positive age the observed height and DBH growth
rates are 0, for any current height (even a missing one) and any DBH, so the
division by age is never taken. -/
theorem growth_rates_zero_for_nonpositive_age (h : Option ℚ) (d age : ℚ)
    (hage : age ≤ 0) :
    calculate_current_height_growth_rate h age = 0 ∧
    calculate_current_dbh_growth_rate d age = 0 := by
  unfold calculate_current_height_growth_rate calculate_current_dbh_growth_rate
  rw [if_pos (Or.inl hage), if_pos hage]
  exact ⟨rfl, rfl⟩

/-- Claim C9 witness at age 0 with a present height and a concrete DBH. -/
theorem growth_rates_zero_for_nonpositive_age_witness :
    (0 : ℚ) ≤ 0 ∧
    calculate_current_height_growth_rate (some 5) 0 = 0 ∧
    calculate_current_dbh_growth_rate 3 0 = 0 :=
  ⟨le_refl 0, growth_rates_zero_for_nonpositive_age (some 5) 3 0 (le_refl 0)⟩

/-- Claim C10: a tree whose canopy-height raster lookup yielded no value (a
None current height) gets observed height growth rate 0 for every age,
including positive ages, both from the rate function itself and in the growth
metrics record assembled for the output row. -/
theorem missing_height_growth_rate_zero (age dbh : ℚ) :
    calculate_current_height_growth_rate none age = 0 ∧
    (calculate_growth_metrics age none dbh).observed_growth_rate_height = 0 := by
  have hz : calculate_current_height_growth_rate none age = 0 := by
    unfold calculate_current_height_growth_rate
    rw [if_pos (Or.inr rfl)]
  exact ⟨hz, hz⟩

/-- Claim C8: for n input features and positive batch size b the orchestrator
issues exactly ceil(n / b) sequential batches, every batch before the last has
exactly b features, the assembled table is the input mapped in order (n rows,
input order), and in particular 12000 features with batch size 5000 give
exactly the three batches 5000, 5000, 2000. -/
theorem gee_data_to_df_batches {α β : Type} (l : List α) (f : α → β) (b : ℕ)
    (hb : 0 < b) :
    (gee_batches l b).length = (l.length + b - 1) / b ∧
    gee_data_to_df l f b = l.map f ∧
    (∀ s ∈ (gee_batches l b).dropLast, s.length = b) ∧
    (l.length = 12000 → b = 5000 →
      (gee_batches l b).map List.length = [5000, 5000, 2000]) := by
  have hflat : (gee_batches l b).flatten = l := by
    have := gee_batches_flatten_aux l b hb l.length 0 (by omega)
    simpa [gee_batches] using this
  refine ⟨?_, ?_, ?_, ?_⟩
  · rw [gee_batches, List.length_map]
    have := rangeStep_length b hb l.length 0 l.length (by omega)
    simpa using this
  · rw [gee_data_to_df, ← List.map_flatten, hflat]
  · exact gee_batches_dropLast_aux l b hb l.length 0 (by omega)
  · intro hn hb5
    subst hb5
    rw [gee_batches, List.map_map]
    have hpt : (List.length ∘ fun i => get_batch l i 5000 l.length)
        = fun i => min 5000 (l.length - i) := by
      funext i
      exact get_batch_length l i 5000
    rw [hpt, hn]
    have hrs : rangeStep 0 12000 5000 = [0, 5000, 10000] := by rfl
    rw [hrs]
    rfl

/-- Claim C8 witness on 12000 concrete features with batch size 5000. -/
theorem gee_data_to_df_batches_witness :
    0 < 5000 ∧
    (gee_batches (List.range 12000) 5000).map List.length = [5000, 5000, 2000] ∧
    gee_data_to_df (List.range 12000) (fun n => n) 5000 = List.range 12000 :=
  have h := gee_data_to_df_batches (List.range 12000) (fun n => n) 5000 (by omega)
  ⟨by omega, h.2.2.2 (by simp) rfl, by simpa using h.2.1⟩

/-- Claim C6: for every binary mask (with non-negative pixel areas) and every
grid cell of positive geometric area, the capped canopy_cover_m2 never
exceeds the cell area, and the derived cover percentage lies in [0, 100]. -/
theorem calculate_canopy_area_bounds (bin_canopy : List (Bool × ℚ))
    (polygon_area d : ℚ) (hpx : ∀ px ∈ bin_canopy, 0 ≤ px.2)
    (harea : 0 < polygon_area) :
    (calculate_canopy_area bin_canopy polygon_area d).canopy_cover_m2 ≤ polygon_area ∧
    0 ≤ (calculate_canopy_area bin_canopy polygon_area d).canopy_cover_percentage ∧
    (calculate_canopy_area bin_canopy polygon_area d).canopy_cover_percentage ≤ 100 := by
  have hsum : 0 ≤ (bin_canopy.map (fun px => if px.1 then px.2 else 0)).sum := by
    apply List.sum_nonneg
    intro x hx
    rw [List.mem_map] at hx
    obtain ⟨px, hpx2, rfl⟩ := hx
    by_cases hb : px.1
    · simpa [hb] using hpx px hpx2
    · simp [hb]
  simp only [calculate_canopy_area]
  refine ⟨min_le_right _ _, ?_, ?_⟩
  · exact mul_nonneg (div_nonneg (le_min hsum (le_of_lt harea)) (le_of_lt harea))
      (by norm_num)
  · have hdiv : (min ((bin_canopy.map (fun px => if px.1 then px.2 else 0)).sum)
        polygon_area) / polygon_area ≤ 1 :=
      (div_le_one harea).mpr (min_le_right _ _)
    linarith

/-- Claim C6 witness: a one-pixel mask of area 5000 in a 10000 m² cell. -/
theorem calculate_canopy_area_bounds_witness :
    (∀ px ∈ [((true : Bool), (5000 : ℚ))], 0 ≤ px.2) ∧ (0 : ℚ) < 10000 ∧
    (calculate_canopy_area [(true, 5000)] 10000 400).canopy_cover_m2 ≤ 10000 ∧
    (calculate_canopy_area [(true, 5000)] 10000 400).canopy_cover_percentage ≤ 100 :=
  have h1 : ∀ px ∈ [((true : Bool), (5000 : ℚ))], 0 ≤ px.2 := by
    intro px hpx
    simp at hpx
    rw [hpx]
    norm_num
  have h2 : (0 : ℚ) < 10000 := by norm_num
  have h := calculate_canopy_area_bounds [(true, 5000)] 10000 400 h1 h2
  ⟨h1, h2, h.1, h.2.2⟩

/-- Claim C2 counterexample: a cell of 10000 m² (one hectare) with only
5000 m² of detected canopy gets tree count 200, not the 400 the claim's
cell-area-times-density formula gives: the code multiplies the capped canopy
area in hectares by the density, not the cell area in hectares (and the
density here is the hard-coded 400 of cover_per_hectare). -/
theorem tree_density_claim_cex :
    (cover_per_hectare_cell [(true, 5000)] 10000).tree_density = 200 ∧
    (10000 : ℚ) / 10000 * 400 = 400 ∧ (200 : ℚ) ≠ 400 := by
  refine ⟨?_, by norm_num, by norm_num⟩
  simp only [cover_per_hectare_cell, calculate_canopy_area, List.map_cons,
    List.map_nil, List.sum_cons, List.sum_nil, if_pos]
  rw [min_eq_left (by norm_num : (5000 : ℚ) + 0 ≤ 10000)]
  norm_num

/-- Claim C2 (amended): the estimated stocked tree count equals the capped
canopy-cover area — not the cell's geometric area — expressed in hectares and
multiplied by the density passed to calculate_canopy_area; it coincides with
the claimed cell-area formula exactly when the cover percentage is 100. -/
theorem tree_density_from_canopy_area (bin_canopy : List (Bool × ℚ))
    (polygon_area d : ℚ) (harea : 0 < polygon_area) (hd : 0 < d) :
    (calculate_canopy_area bin_canopy polygon_area d).tree_density
        = (calculate_canopy_area bin_canopy polygon_area d).canopy_cover_m2 / 10000 * d ∧
    ((calculate_canopy_area bin_canopy polygon_area d).tree_density
        = polygon_area / 10000 * d ↔
      (calculate_canopy_area bin_canopy polygon_area d).canopy_cover_percentage = 100) := by
  refine ⟨rfl, ?_⟩
  simp only [calculate_canopy_area]
  have harea0 : polygon_area ≠ 0 := ne_of_gt harea
  have hd0 : d ≠ 0 := ne_of_gt hd
  have h10000 : (10000 : ℚ) ≠ 0 := by norm_num
  have h100 : (100 : ℚ) ≠ 0 := by norm_num
  constructor
  · intro hEq
    have h1 : min ((bin_canopy.map (fun px => if px.1 then px.2 else 0)).sum)
        polygon_area / 10000 = polygon_area / 10000 := mul_right_cancel₀ hd0 hEq
    have h2 := congrArg (fun x : ℚ => x * 10000) h1
    simp only [div_mul_cancel₀ _ h10000] at h2
    rw [h2, div_self harea0]
    norm_num
  · intro hPct
    have h1 : min ((bin_canopy.map (fun px => if px.1 then px.2 else 0)).sum)
        polygon_area / polygon_area * 100 = 1 * 100 := by
      rw [one_mul]; exact hPct
    have h2 : min ((bin_canopy.map (fun px => if px.1 then px.2 else 0)).sum)
        polygon_area / polygon_area = 1 := mul_right_cancel₀ h100 h1
    have hmin : min ((bin_canopy.map (fun px => if px.1 then px.2 else 0)).sum)
        polygon_area = polygon_area := by
      have h3 := congrArg (fun x : ℚ => x * polygon_area) h2
      simp only [div_mul_cancel₀ _ harea0, one_mul] at h3
      exact h3
    rw [hmin]

/-- Claim C2 witness: concrete mask, cell area and density satisfying the
hypotheses of the amended theorem. -/
theorem tree_density_from_canopy_area_witness :
    (0 : ℚ) < 10000 ∧ (0 : ℚ) < 400 ∧
    (calculate_canopy_area [(true, 5000)] 10000 400).tree_density
        = (calculate_canopy_area [(true, 5000)] 10000 400).canopy_cover_m2 / 10000 * 400 :=
  have h1 : (0 : ℚ) < 10000 := by norm_num
  have h2 : (0 : ℚ) < 400 := by norm_num
  ⟨h1, h2, (tree_density_from_canopy_area [(true, 5000)] 10000 400 h1 h2).1⟩

/-- Claim C1 counterexample: a single tree intersecting no grid cell is
dropped entirely from the joined output — the output is empty although the
input held one tree — instead of being emitted with a null cover attribute. -/
theorem extract_canopy_cover_claim_cex :
    extract_canopy_cover [⟨0, none⟩] [] (fun _ _ => false) = [] ∧
    ([⟨0, none⟩] : List TreeFeature) ≠ [] :=
  ⟨rfl, by simp⟩

/-- Claim C1 (amended): extract_canopy_cover is an inner join — it emits
exactly the trees that intersect at least one grid cell (in input order), each
with the canopy cover attribute present, copied from its first matching cell;
trees intersecting no cell are dropped rather than emitted with a null
attribute. -/
theorem extract_canopy_cover_inner_join (trees : List TreeFeature)
    (cells : List GridCellFeature)
    (intersects : TreeFeature → GridCellFeature → Bool) :
    (extract_canopy_cover trees cells intersects).length
        = (trees.filter (fun t => cells.any (intersects t))).length ∧
    (extract_canopy_cover trees cells intersects).all
        (fun r => r.canopy_cover_percentage.isSome) = true := by
  induction trees with
  | nil => exact ⟨rfl, rfl⟩
  | cons t ts ih =>
    unfold extract_canopy_cover at ih ⊢
    rw [List.filter_cons]
    cases hfind : cells.find? (intersects t) with
    | none =>
      have hany : cells.any (intersects t) = false := by
        rw [List.any_eq_false]
        intro x hx
        simpa using List.find?_eq_none.mp hfind x hx
      simp only [List.filterMap_cons, hfind, Option.map_none', hany,
        Bool.false_eq_true, if_false]
      exact ih
    | some c =>
      have hany : cells.any (intersects t) = true := by
        rw [List.any_eq_true]
        exact ⟨c, List.mem_of_find?_eq_some hfind, List.find?_some hfind⟩
      simp only [List.filterMap_cons, hfind, Option.map_some', hany, if_true,
        List.length_cons, List.all_cons]
      refine ⟨?_, ?_⟩
      · rw [ih.1]
      · simpa using ih.2

/-- Claim C3 counterexample: two qualifying scenes, an older one with cloud
cover 1 and a more recent one with cloud cover 4; image_ndvi selects the more
recent, cloudier scene, not the least-cloudy one.  With no scenes at all it
selects nothing — there is no NoImageryAvailableError anywhere in the code. -/
theorem image_ndvi_claim_cex :
    image_ndvi [⟨s2FilterStart, 1, true⟩, ⟨s2FilterStart + 1000, 4, true⟩]
        = some ⟨s2FilterStart + 1000, 4, true⟩ ∧
    s2Qualifies ⟨s2FilterStart, 1, true⟩ = true ∧
    (Scene.cloudy_pixel_percentage ⟨s2FilterStart, 1, true⟩)
        < Scene.cloudy_pixel_percentage ⟨s2FilterStart + 1000, 4, true⟩ ∧
    image_ndvi [] = none := by
  have hq1 : s2Qualifies ⟨s2FilterStart, 1, true⟩ = true := by
    simp [s2Qualifies, s2FilterStart, s2FilterEnd]
  have hq2 : s2Qualifies ⟨s2FilterStart + 1000, 4, true⟩ = true := by
    norm_num [s2Qualifies, s2FilterStart, s2FilterEnd]
  refine ⟨?_, hq1, by norm_num, rfl⟩
  rw [image_ndvi, List.filter_cons_of_pos hq1, List.filter_cons_of_pos hq2,
    List.filter_nil]
  unfold firstMostRecent
  rw [List.foldl_cons, List.foldl_cons, List.foldl_nil]
  have hstep1 : fmStep none ⟨s2FilterStart, 1, true⟩ = some ⟨s2FilterStart, 1, true⟩ := rfl
  rw [hstep1]
  have hlt : (Scene.mk s2FilterStart 1 true).time_start
      < (Scene.mk (s2FilterStart + 1000) 4 true).time_start := by
    simp [s2FilterStart]
  simp [fmStep, hlt]

/-- Claim C3 (amended): among the scenes passing the hard-coded filters
(bounds, year 2023 date range, cloud cover below 5) image_ndvi selects a
qualifying scene that is most recent — not least cloudy — and selects nothing
exactly when no scene qualifies; no NoImageryAvailableError is raised since
none exists in the code. -/
theorem image_ndvi_selects_most_recent (scenes : List Scene) :
    (image_ndvi scenes = none ↔ ∀ s ∈ scenes, s2Qualifies s = false) ∧
    ∀ r, image_ndvi scenes = some r →
      s2Qualifies r = true ∧ r ∈ scenes ∧
      ∀ t ∈ scenes, s2Qualifies t = true → t.time_start ≤ r.time_start := by
  obtain ⟨hnone, hsome⟩ := firstMostRecent_spec (scenes.filter s2Qualifies)
  constructor
  · rw [image_ndvi, hnone, List.filter_eq_nil_iff]
    constructor
    · intro h s hs
      simpa using h s hs
    · intro h s hs
      simp [h s hs]
  · intro r hr
    obtain ⟨hmem, hmax⟩ := hsome r hr
    refine ⟨(List.mem_filter.mp hmem).2, (List.mem_filter.mp hmem).1, ?_⟩
    intro t ht hqt
    exact hmax t (List.mem_filter.mpr ⟨ht, hqt⟩)

/-- Claim C3 witness: on the two concrete qualifying scenes the selected
scene qualifies and is at least as recent as the older clear scene. -/
theorem image_ndvi_selects_most_recent_witness :
    s2Qualifies ⟨s2FilterStart + 1000, 4, true⟩ = true ∧
    (Scene.time_start ⟨s2FilterStart, 1, true⟩)
        ≤ Scene.time_start ⟨s2FilterStart + 1000, 4, true⟩ :=
  have hsel : image_ndvi [⟨s2FilterStart, 1, true⟩, ⟨s2FilterStart + 1000, 4, true⟩]
      = some ⟨s2FilterStart + 1000, 4, true⟩ := by
    have hq1 : s2Qualifies ⟨s2FilterStart, 1, true⟩ = true := by
      simp [s2Qualifies, s2FilterStart, s2FilterEnd]
    have hq2 : s2Qualifies ⟨s2FilterStart + 1000, 4, true⟩ = true := by
      norm_num [s2Qualifies, s2FilterStart, s2FilterEnd]
    rw [image_ndvi, List.filter_cons_of_pos hq1, List.filter_cons_of_pos hq2,
      List.filter_nil]
    unfold firstMostRecent
    rw [List.foldl_cons, List.foldl_cons, List.foldl_nil]
    have hstep1 : fmStep none ⟨s2FilterStart, 1, true⟩ = some ⟨s2FilterStart, 1, true⟩ := rfl
    rw [hstep1]
    have hlt : (Scene.mk s2FilterStart 1 true).time_start
        < (Scene.mk (s2FilterStart + 1000) 4 true).time_start := by
      simp [s2FilterStart]
    simp [fmStep, hlt]
  have h := (image_ndvi_selects_most_recent
      [⟨s2FilterStart, 1, true⟩, ⟨s2FilterStart + 1000, 4, true⟩]).2
      ⟨s2FilterStart + 1000, 4, true⟩ hsel
  ⟨h.1, h.2.2 ⟨s2FilterStart, 1, true⟩ (by simp)
    (by simp [s2Qualifies, s2FilterStart, s2FilterEnd])⟩

/-- The allSamePoint test succeeds exactly when all points of the list are
pairwise equal. -/
lemma allSamePoint_true_iff (ps : List PointQ) :
    allSamePoint ps = true ↔ ∀ p ∈ ps, ∀ q ∈ ps, p = q := by
  cases ps with
  | nil => simp [allSamePoint]
  | cons h rest =>
    simp only [allSamePoint, List.all_eq_true, decide_eq_true_eq]
    constructor
    · intro hall p hp q hq
      have hx : ∀ x ∈ h :: rest, x = h := by
        intro x hx
        rcases List.mem_cons.mp hx with h1 | h1
        · exact h1
        · exact hall x h1
      rw [hx p hp, hx q hq]
    · intro hpq q hq
      exact hpq q (List.mem_cons_of_mem h hq) h (List.mem_cons_self h rest)

/-- Claim C4 counterexample: two distinct points — fewer than three — do not
fail at all: the degenerate LineString hull is buffered and a region of
interest is returned, contradicting the claimed InsufficientDataError (which
does not exist anywhere in the code). -/
theorem extract_roi_claim_cex :
    extract_roi_from_points [(1, 0), (2, 0)] false = .bufferedPolygonRoi ∧
    RoiOutcome.isRoi (extract_roi_from_points [(1, 0), (2, 0)] false) = true := by
  have hs : allSamePoint [((1 : ℚ), (0 : ℚ)), (2, 0)] = false := by
    simp [allSamePoint]
  have hc : allCollinear [((1 : ℚ), (0 : ℚ)), (2, 0)] = true := by
    simp [allCollinear, cross2]
  have hk : hullKind [((1 : ℚ), (0 : ℚ)), (2, 0)] = .lineHull := by
    simp [hullKind, hs, hc]
  refine ⟨?_, ?_⟩ <;> simp [extract_roi_from_points, hk, RoiOutcome.isRoi]

/-- Claim C4 (amended): extract_roi_from_points never raises an
InsufficientDataError (none exists in the code): with at least two distinct
points — including exactly two — it returns a region of interest, buffering a
degenerate LineString hull into a polygon; with zero or one distinct point on
the pipeline's wkt_format=false path it crashes with AttributeError while
reading the exterior of a Point or empty hull. -/
theorem extract_roi_no_insufficient_data (ps : List PointQ) :
    (∀ p q : PointQ, p ∈ ps → q ∈ ps → p ≠ q →
      RoiOutcome.isRoi (extract_roi_from_points ps false) = true) ∧
    (ps ≠ [] → (∀ p ∈ ps, ∀ q ∈ ps, p = q) →
      extract_roi_from_points ps false = .attributeErrorCrash) ∧
    (ps = [] → extract_roi_from_points ps false = .attributeErrorCrash) := by
  refine ⟨?_, ?_, ?_⟩
  · intro p q hp hq hne
    have hne0 : ps ≠ [] := by
      intro h0
      rw [h0] at hp
      simp at hp
    have h0 : ps.isEmpty = false := List.isEmpty_eq_false.mpr hne0
    have hsame : allSamePoint ps = false := by
      cases hval : allSamePoint ps with
      | false => rfl
      | true => exact absurd ((allSamePoint_true_iff ps).mp hval p hp q hq) hne
    have hk : hullKind ps = HullKind.lineHull ∨ hullKind ps = HullKind.polygonHull := by
      unfold hullKind
      rw [if_neg (by simp [h0]), if_neg (by simp [hsame])]
      by_cases hcol : allCollinear ps = true
      · rw [if_pos hcol]
        exact Or.inl rfl
      · rw [if_neg hcol]
        exact Or.inr rfl
    rcases hk with hk | hk <;> simp [extract_roi_from_points, hk, RoiOutcome.isRoi]
  · intro hne0 hsame
    have h1 : allSamePoint ps = true := (allSamePoint_true_iff ps).mpr hsame
    have h0 : ps.isEmpty = false := List.isEmpty_eq_false.mpr hne0
    have hk : hullKind ps = HullKind.pointHull := by
      unfold hullKind
      rw [if_neg (by simp [h0]), if_pos (by simp [h1])]
    simp [extract_roi_from_points, hk]
  · intro h0
    subst h0
    rfl

/-- Claim C4 witness: the two distinct points (1, 0) and (2, 0) yield a
region of interest through the amended theorem. -/
theorem extract_roi_no_insufficient_data_witness :
    RoiOutcome.isRoi (extract_roi_from_points [(1, 0), (2, 0)] false) = true :=
  (extract_roi_no_insufficient_data [(1, 0), (2, 0)]).1 (1, 0) (2, 0)
    (by simp) (by simp) (by simp)

/-! ## Supporting lemmas: grid geometry -/

lemma vertLine_prod (c : ℝ) :
    {p : ℝ × ℝ | p.1 = c} = ({c} : Set ℝ) ×ˢ (Set.univ : Set ℝ) := by
  ext p
  constructor
  · intro hp
    exact ⟨hp.symm ▸ rfl, trivial⟩
  · intro hp
    exact hp.1

lemma horizLine_prod (c : ℝ) :
    {p : ℝ × ℝ | p.2 = c} = (Set.univ : Set ℝ) ×ˢ ({c} : Set ℝ) := by
  ext p
  constructor
  · intro hp
    exact ⟨trivial, hp.symm ▸ rfl⟩
  · intro hp
    exact hp.2

lemma volume_vertLine (c : ℝ) : (volume : Measure (ℝ × ℝ)) {p | p.1 = c} = 0 := by
  rw [vertLine_prod, Measure.volume_eq_prod, Measure.prod_prod,
    Real.volume_singleton, zero_mul]

lemma volume_horizLine (c : ℝ) : (volume : Measure (ℝ × ℝ)) {p | p.2 = c} = 0 := by
  rw [horizLine_prod, Measure.volume_eq_prod, Measure.prod_prod,
    Real.volume_singleton, mul_zero]

lemma Icc_grid_inter_subset (a w : ℝ) {i k : ℕ} (hik : i < k) :
    Set.Icc (a + i * w) (a + i * w + w) ∩ Set.Icc (a + k * w) (a + k * w + w)
      ⊆ {x : ℝ | x = a + k * w} := by
  rintro x ⟨⟨h1, h2⟩, h3, h4⟩
  rcases le_or_lt 0 w with hw | hw
  · have hik1 : (i : ℝ) + 1 ≤ (k : ℝ) := by exact_mod_cast hik
    have hmul : ((i : ℝ) + 1) * w ≤ (k : ℝ) * w := mul_le_mul_of_nonneg_right hik1 hw
    rw [add_mul, one_mul] at hmul
    exact le_antisymm (le_trans h2 (by linarith)) h3
  · exfalso
    linarith

lemma cell_rect_aedisjoint (μ : Measure (ℝ × ℝ))
    (hvert : ∀ c : ℝ, μ {p : ℝ × ℝ | p.1 = c} = 0)
    (hhorz : ∀ c : ℝ, μ {p : ℝ × ℝ | p.2 = c} = 0)
    (lon_min lat_min w h : ℝ) {ij kl : ℕ × ℕ} (hne : ij ≠ kl) :
    AEDisjoint μ (cell_rect lon_min lat_min w h ij) (cell_rect lon_min lat_min w h kl) := by
  have hcase : ij.1 ≠ kl.1 ∨ ij.2 ≠ kl.2 := by
    by_contra hcon
    push_neg at hcon
    exact hne (Prod.ext hcon.1 hcon.2)
  rcases hcase with hc | hc
  · rcases Nat.lt_or_ge ij.1 kl.1 with hlt | hge
    · refine measure_mono_null ?_ (hvert (lon_min + kl.1 * w))
      rintro p ⟨hp1, hp2⟩
      exact Icc_grid_inter_subset lon_min w hlt (Set.mem_inter hp1.1 hp2.1)
    · have hlt : kl.1 < ij.1 := lt_of_le_of_ne hge (Ne.symm hc)
      refine measure_mono_null ?_ (hvert (lon_min + ij.1 * w))
      rintro p ⟨hp1, hp2⟩
      exact Icc_grid_inter_subset lon_min w hlt (Set.mem_inter hp2.1 hp1.1)
  · rcases Nat.lt_or_ge ij.2 kl.2 with hlt | hge
    · refine measure_mono_null ?_ (hhorz (lat_min + kl.2 * h))
      rintro p ⟨hp1, hp2⟩
      exact Icc_grid_inter_subset lat_min h hlt (Set.mem_inter hp1.2 hp2.2)
    · have hlt : kl.2 < ij.2 := lt_of_le_of_ne hge (Ne.symm hc)
      refine measure_mono_null ?_ (hhorz (lat_min + ij.2 * h))
      rintro p ⟨hp1, hp2⟩
      exact Icc_grid_inter_subset lat_min h hlt (Set.mem_inter hp2.2 hp1.2)

/-- Claim C5: every cell retained by create_grid_within_roi has clipped area
strictly greater than 1 m², and the retained cells' clipped areas sum to at
most the region of interest's own area — for every measurable region of
interest, any bounding box, any grid size, and any area measure that assigns
zero to degenerate vertical and horizontal line segments. -/
theorem create_grid_within_roi_invariants (μ : Measure (ℝ × ℝ)) (roi : Set (ℝ × ℝ))
    (lon_min lat_min lon_max lat_max gridsize : ℝ) (hroi : MeasurableSet roi)
    (hvert : ∀ c : ℝ, μ {p : ℝ × ℝ | p.1 = c} = 0)
    (hhorz : ∀ c : ℝ, μ {p : ℝ × ℝ | p.2 = c} = 0) :
    (∀ ij ∈ create_grid_within_roi μ roi lon_min lat_min lon_max lat_max gridsize,
      1 < clipped_area μ roi lon_min lat_min (width_deg lat_min gridsize)
        (height_deg gridsize) ij) ∧
    ∑ ij ∈ create_grid_within_roi μ roi lon_min lat_min lon_max lat_max gridsize,
      clipped_area μ roi lon_min lat_min (width_deg lat_min gridsize)
        (height_deg gridsize) ij ≤ μ roi := by
  constructor
  · intro ij hij
    unfold create_grid_within_roi at hij
    exact (Finset.mem_filter.mp hij).2
  · have hsub : create_grid_within_roi μ roi lon_min lat_min lon_max lat_max gridsize
        ⊆ grid_index lon_min lat_min lon_max lat_max gridsize := by
      unfold create_grid_within_roi
      exact Finset.filter_subset _ _
    have hd : Set.Pairwise (↑(grid_index lon_min lat_min lon_max lat_max gridsize))
        (AEDisjoint μ on fun ij => cell_rect lon_min lat_min
          (width_deg lat_min gridsize) (height_deg gridsize) ij ∩ roi) := by
      intro x hx y hy hxy
      exact AEDisjoint.mono
        (cell_rect_aedisjoint μ hvert hhorz lon_min lat_min
          (width_deg lat_min gridsize) (height_deg gridsize) hxy)
        Set.inter_subset_left Set.inter_subset_left
    have hm : ∀ b ∈ grid_index lon_min lat_min lon_max lat_max gridsize,
        NullMeasurableSet (cell_rect lon_min lat_min (width_deg lat_min gridsize)
          (height_deg gridsize) b ∩ roi) μ := by
      intro b hb
      exact ((measurableSet_Icc.prod measurableSet_Icc).inter hroi).nullMeasurableSet
    calc ∑ ij ∈ create_grid_within_roi μ roi lon_min lat_min lon_max lat_max gridsize,
        clipped_area μ roi lon_min lat_min (width_deg lat_min gridsize)
          (height_deg gridsize) ij
        ≤ ∑ ij ∈ grid_index lon_min lat_min lon_max lat_max gridsize,
            clipped_area μ roi lon_min lat_min (width_deg lat_min gridsize)
              (height_deg gridsize) ij :=
          Finset.sum_le_sum_of_subset hsub
      _ = μ (⋃ ij ∈ grid_index lon_min lat_min lon_max lat_max gridsize,
            (cell_rect lon_min lat_min (width_deg lat_min gridsize)
              (height_deg gridsize) ij ∩ roi)) :=
          (measure_biUnion_finset₀ hd hm).symm
      _ ≤ μ roi :=
          measure_mono (Set.iUnion₂_subset fun ij _ => Set.inter_subset_right)

/-- Claim C5 witness: the empty region of interest with Lebesgue planar area
and a concrete bounding box and grid size. -/
theorem create_grid_within_roi_invariants_witness :
    MeasurableSet (∅ : Set (ℝ × ℝ)) ∧
    ∑ ij ∈ create_grid_within_roi volume ∅ 0 0 1 1 100,
      clipped_area volume ∅ 0 0 (width_deg 0 100) (height_deg 100) ij
        ≤ volume (∅ : Set (ℝ × ℝ)) :=
  ⟨MeasurableSet.empty,
    (create_grid_within_roi_invariants volume ∅ 0 0 1 1 100 MeasurableSet.empty
      volume_vertLine volume_horizLine).2⟩
